import Mathlib

/-!
# Verification of the merch-master-pro inventory/POS application

Shallow embedding of the application's data model and the operations the
specification speaks about, translated from the TypeScript source and the
SQL migrations:

* the stock-adjustment handler (`handleAdjustment` in the stock-adjustment
  dialog component) together with the `stock_logs` table's CHECK constraint;
* the bulk product-edit price loop (`handleSubmit` in the bulk-edit dialog);
* the point-of-sale cart operations and checkout (`src/pages/POS.tsx`);
* the first-user role bootstrap trigger (`handle_new_user` in the migration);
* the CSV import pipeline (`handleImportCSV` in `src/pages/Products.tsx`).

Quantities are modelled as `Int` (the code uses `parseInt` results), money
amounts as `Rat` (the code uses JS numbers holding SQL `numeric` values; the
properties at stake are exact decimal arithmetic facts, stated over `ℚ`).
Database tables are modelled as lists of row records, and each handler as a
function from state to state (plus result data where the handler reports
anything).  A rejected operation returns the state unchanged.
-/

namespace MerchMaster

/-! ## Stock adjustment (stock-adjustment dialog, `handleAdjustment`) -/

/-- The three adjustment operations offered by the dialog
(`useState<'add' | 'remove' | 'set'>`). -/
inductive AdjustmentType where
  | add
  | remove
  | set
deriving DecidableEq, Repr

/-- A `product_variants` row, reduced to the fields the adjustment handler
touches (`id`, `quantity`). -/
structure VariantRow where
  id : Nat
  quantity : Int
deriving DecidableEq, Repr

/-- The payload of a `stock_logs` insert as built by `handleAdjustment`
(the schema's defaulted columns `id` and `created_at` are omitted). -/
structure StockLogRow where
  product_id : Nat
  variant_id : Nat
  type : String
  quantity : Int
  note : String
  created_by : Nat
deriving DecidableEq, Repr

/-- The slice of database state the stock-adjustment flow reads and writes. -/
structure StockState where
  product_variants : List VariantRow
  stock_logs : List StockLogRow
deriving DecidableEq, Repr

/-- `loadCurrentStock`: the quantity of the selected variant, if it exists
(`select('quantity').eq('id', variantId).single()`). -/
def lookupQuantity (s : StockState) (variantId : Nat) : Option Int :=
  (s.product_variants.find? (fun v => v.id = variantId)).map (fun v => v.quantity)

/-- The `switch (adjustmentType)` block computing `newQuantity` from
`currentStock || 0` and the parsed adjustment quantity. -/
def newQuantityOf (t : AdjustmentType) (current value : Int) : Int :=
  match t with
  | .add => current + value
  | .remove => current - value
  | .set => value

/-- The `type` string the handler writes to the log:
`adjustmentType === 'add' ? 'adjustment_in' : adjustmentType === 'remove' ?
'adjustment_out' : 'adjustment_set'`. -/
def adjustmentLogType (t : AdjustmentType) : String :=
  match t with
  | .add => "adjustment_in"
  | .remove => "adjustment_out"
  | .set => "adjustment_set"

/-- The variant-quantity update
(`from('product_variants').update({ quantity }).eq('id', selectedVariant)`). -/
def updateVariantQuantity (s : StockState) (variantId : Nat) (q : Int) : StockState :=
  { s with
    product_variants :=
      s.product_variants.map (fun v => if v.id = variantId then { v with quantity := q } else v) }

/-- The stock-log append (`from('stock_logs').insert([...])`). -/
def insertStockLog (s : StockState) (row : StockLogRow) : StockState :=
  { s with stock_logs := s.stock_logs ++ [row] }

/-- Result of the adjustment handler: whether it succeeded, and the state
after it ran (unchanged when the adjustment was rejected). -/
structure AdjustResult where
  success : Bool
  state : StockState
deriving DecidableEq, Repr

/-- `handleAdjustment`: compute `newQuantity` from the current stock
(`currentStock || 0`) and the operation; if it is negative, toast an error
and return without writing; otherwise update the variant's quantity and then
append one stock-log row whose `quantity` is `newQuantity` for `set` and the
adjustment value otherwise. -/
def handleAdjustment (s : StockState) (productId variantId : Nat)
    (t : AdjustmentType) (value : Int) (note : String) (userId : Nat) : AdjustResult :=
  let current := (lookupQuantity s variantId).getD 0
  let newQuantity := newQuantityOf t current value
  if newQuantity < 0 then
    { success := false, state := s }
  else
    let row : StockLogRow :=
      { product_id := productId
        variant_id := variantId
        type := adjustmentLogType t
        quantity := if t = .set then newQuantity else value
        note := note
        created_by := userId }
    { success := true, state := insertStockLog (updateVariantQuantity s variantId newQuantity) row }

/-! ## The `stock_logs` CHECK constraint (migration `20251025081039`) -/

/-- The migration's column constraint:
`type text NOT NULL CHECK (type IN ('in', 'out', 'sale', 'return'))`. -/
def stockLogTypeCheck (ty : String) : Bool :=
  ty = "in" ∨ ty = "out" ∨ ty = "sale" ∨ ty = "return"

/-! ## Bulk product edit (bulk-edit dialog, `handleSubmit`, adjust branch) -/

/-- A `products` row reduced to what the price-adjust loop touches
(`select('id, price')`). -/
structure ProductRow where
  id : Nat
  price : Rat
deriving DecidableEq, Repr

/-- `formData.priceAdjustmentType`: percentage or fixed amount. -/
inductive PriceAdjustmentType where
  | percentage
  | fixed
deriving DecidableEq, Repr

/-- The per-product new price:
`newPrice = product.price * (1 + adjustment / 100)` for percentage,
`newPrice = product.price + adjustment` for fixed. -/
def newPriceOf (pt : PriceAdjustmentType) (adjustment price : Rat) : Rat :=
  match pt with
  | .percentage => price * (1 + adjustment / 100)
  | .fixed => price + adjustment

/-- One per-row price write
(`from('products').update({ price: Math.max(0, newPrice) }).eq('id', product.id)`). -/
def updateProductPrice (store : List ProductRow) (pid : Nat) (p : Rat) : List ProductRow :=
  store.map (fun r => if r.id = pid then { r with price := p } else r)

/-- The `for (const product of products)` loop of the adjust branch: for each
fetched product compute `newPrice`; if it is negative, toast an error and
`return` (aborting the rest of the loop, with earlier writes already applied);
otherwise write `Math.max(0, newPrice)` for that product and continue.
Returns the store after the loop together with `true` when the loop ran to
completion and `false` when it aborted. -/
def adjustLoop (pt : PriceAdjustmentType) (adjustment : Rat)
    (store : List ProductRow) : List ProductRow → List ProductRow × Bool
  | [] => (store, true)
  | p :: rest =>
    let newPrice := newPriceOf pt adjustment p.price
    if newPrice < 0 then
      (store, false)
    else
      adjustLoop pt adjustment (updateProductPrice store p.id (max 0 newPrice)) rest

/-- The fetch feeding the loop:
`from('products').select('id, price').in('id', selectedIds)`. -/
def fetchSelected (store : List ProductRow) (selectedIds : List Nat) : List ProductRow :=
  store.filter (fun r => selectedIds.contains r.id)

/-- The whole adjust branch of `handleSubmit`: fetch the selected products'
current prices, then run the per-product update loop over them. -/
def handleSubmitAdjust (pt : PriceAdjustmentType) (adjustment : Rat)
    (store : List ProductRow) (selectedIds : List Nat) : List ProductRow × Bool :=
  adjustLoop pt adjustment store (fetchSelected store selectedIds)

/-! ## Point of sale (`src/pages/POS.tsx`) -/

/-- A `products` row as loaded by the POS page
(`select('id, name, sku, price')`). -/
structure Product where
  id : Nat
  name : String
  sku : String
  price : Rat
deriving DecidableEq, Repr

/-- A cart line: `{ product, quantity, total }`. -/
structure CartItem where
  product : Product
  quantity : Int
  total : Rat
deriving DecidableEq, Repr

/-- A `customers` row as loaded by the POS page (`select('id, name, phone, email')`,
reduced to the fields the checkout flow reads and writes). -/
structure CustomerRow where
  name : String
  phone : String
deriving DecidableEq, Repr

/-- A `sales` header row as inserted by `handleCheckout`. -/
structure SaleRow where
  sale_number : String
  customer_name : String
  payment_method : String
  payment_status : String
  tax_amount : Rat
  total_amount : Rat
  created_by : Nat
deriving DecidableEq, Repr

/-- A `sale_items` row as inserted by `handleCheckout`. -/
structure SaleItemRow where
  sale_id : Nat
  product_id : Nat
  quantity : Int
  unit_price : Rat
  total_price : Rat
deriving DecidableEq, Repr

/-- `removeFromCart`: `cart.filter(item => item.product.id !== productId)`. -/
def removeFromCart (cart : List CartItem) (productId : Nat) : List CartItem :=
  cart.filter (fun item => item.product.id ≠ productId)

/-- `updateQuantity`: a non-positive new quantity removes the line; otherwise
the matching line's quantity is replaced and its total recomputed as
`item.product.price * newQuantity`. -/
def updateQuantity (cart : List CartItem) (productId : Nat) (newQuantity : Int) :
    List CartItem :=
  if newQuantity ≤ 0 then
    removeFromCart cart productId
  else
    cart.map (fun item =>
      if item.product.id = productId then
        { item with quantity := newQuantity, total := item.product.price * newQuantity }
      else item)

/-- `addToCart`: bump the quantity of an existing line for the same product,
or append a fresh line `{ product, quantity: 1, total: product.price }`. -/
def addToCart (cart : List CartItem) (product : Product) : List CartItem :=
  match cart.find? (fun item => item.product.id = product.id) with
  | some existingItem => updateQuantity cart product.id (existingItem.quantity + 1)
  | none => cart ++ [{ product := product, quantity := 1, total := product.price }]

/-- `calculateSubtotal`: `cart.reduce((sum, item) => sum + item.total, 0)`. -/
def calculateSubtotal (cart : List CartItem) : Rat :=
  cart.foldl (fun sum item => sum + item.total) 0

/-- `calculateTax`: `calculateSubtotal() * 0.05` (5% tax, hardcoded). -/
def calculateTax (cart : List CartItem) : Rat :=
  calculateSubtotal cart * 0.05

/-- `calculateTotal`: `calculateSubtotal() + calculateTax()`. -/
def calculateTotal (cart : List CartItem) : Rat :=
  calculateSubtotal cart + calculateTax cart

/-- The slice of database state the checkout flow can see: the stock-related
tables (which C6 asserts it leaves alone) and the tables it inserts into. -/
structure PosState where
  product_variants : List VariantRow
  stock_logs : List StockLogRow
  sales : List SaleRow
  sale_items : List SaleItemRow
  customers : List CustomerRow
deriving DecidableEq, Repr

/-- The `decimal(10,2)` column scale declared in the migration for
`sales.total_amount`, `sales.tax_amount`, `sale_items.unit_price` and
`sale_items.total_price`: PostgreSQL rounds an inserted numeric to the
declared scale, half away from zero. -/
def numericScale2 (q : Rat) : Rat :=
  if 0 ≤ q then ((⌊q * 100 + 1/2⌋ : Int) : Rat) / 100
  else -(((⌊-q * 100 + 1/2⌋ : Int) : Rat) / 100)

/-- `handleCheckout`: an empty cart is rejected (no write).  Otherwise insert
one `sales` header carrying `calculateTax()` and `calculateTotal()`; insert a
new customer when a phone number and name were given and no stored customer
has that phone; then insert one `sale_items` row per cart line.  The money
columns of `sales` and `sale_items` are `decimal(10,2)`, so the stored values
are the inserted ones rounded to that scale (`numericScale2`).  `saleId` is
the identifier the database returns for the new sale header; `saleNumber` is
the generated `SALE-${Date.now()}` string. -/
def handleCheckout (st : PosState) (cart : List CartItem)
    (customerName phoneNumber paymentMethod : String) (userId saleId : Nat)
    (saleNumber : String) : PosState :=
  if cart = [] then st
  else
    let sale : SaleRow :=
      { sale_number := saleNumber
        customer_name := if customerName = "" then "Walk-in Customer" else customerName
        payment_method := paymentMethod
        payment_status := "paid"
        tax_amount := numericScale2 (calculateTax cart)
        total_amount := numericScale2 (calculateTotal cart)
        created_by := userId }
    let st1 := { st with sales := st.sales ++ [sale] }
    let st2 :=
      if phoneNumber ≠ "" ∧ customerName ≠ "" ∧
          (st.customers.find? (fun c => c.phone = phoneNumber)).isNone then
        { st1 with customers := st1.customers ++ [{ name := customerName, phone := phoneNumber }] }
      else st1
    let saleItems := cart.map (fun item =>
      { sale_id := saleId
        product_id := item.product.id
        quantity := item.quantity
        unit_price := numericScale2 item.product.price
        total_price := numericScale2 item.total : SaleItemRow })
    { st2 with sale_items := st2.sale_items ++ saleItems }

/-- Modelled from the spec: "rounded to 2 decimal places" — rounding a money
amount to the nearest multiple of 1/100 (used only to compare the spec's
rounding clause with what the checkout code persists). -/
def roundTo2 (q : Rat) : Rat :=
  (round (q * 100) : ℤ) / 100

/-! ## First-user bootstrap (`handle_new_user` trigger, migration `20251025081039`) -/

/-- A `profiles` row (reduced to the user id; `full_name` is irrelevant to the
claims). -/
structure ProfileRow where
  id : Nat
deriving DecidableEq, Repr

/-- A `user_roles` row: `(user_id, role)` with `role` one of `'admin'`/`'user'`. -/
structure UserRoleRow where
  user_id : Nat
  role : String
deriving DecidableEq, Repr

/-- The state the trigger sees: `auth.users` (as a list of user ids, in
creation order), `profiles` and `user_roles`. -/
structure AuthState where
  users : List Nat
  profiles : List ProfileRow
  user_roles : List UserRoleRow
deriving DecidableEq, Repr

/-- The `handle_new_user` trigger body, which fires AFTER INSERT on
`auth.users` (so the new row is already counted): insert a profile, count
`auth.users`, and grant `'admin'` when the count is 1, `'user'` otherwise. -/
def handle_new_user (s : AuthState) (newId : Nat) : AuthState :=
  let s1 := { s with profiles := s.profiles ++ [ProfileRow.mk newId] }
  let user_count := s1.users.length
  if user_count = 1 then
    { s1 with user_roles := s1.user_roles ++ [UserRoleRow.mk newId "admin"] }
  else
    { s1 with user_roles := s1.user_roles ++ [UserRoleRow.mk newId "user"] }

/-- Account creation: the insert into `auth.users` followed by the AFTER
INSERT trigger. -/
def createAccount (s : AuthState) (newId : Nat) : AuthState :=
  handle_new_user { s with users := s.users ++ [newId] } newId

/-- A sequence of account creations, in order. -/
def createAccounts (s : AuthState) (ids : List Nat) : AuthState :=
  ids.foldl createAccount s

/-- The system before any account exists. -/
def emptyAuthState : AuthState :=
  { users := [], profiles := [], user_roles := [] }

/-! ## CSV import (`src/pages/Products.tsx`, `handleImportCSV`)

A data line of the file is modelled after parsing: the code splits the line
on commas, requires at least 3 fields (`values.length >= 3`), truncates the
string fields and computes `price = parseFloat(values[3]) || 0` (so `price`
here is the parsed-or-zero value).  String truncation is immaterial to the
claims and is absorbed into the parsed fields. -/

/-- One parsed CSV data line. -/
structure CsvRow where
  name : String
  sku : String
  barcode : Option String
  price : Rat
  fieldCount : Nat
deriving DecidableEq, Repr

/-- The `for (const line of dataLines)` loop: skip rows with fewer than 3
fields, skip rows with negative price, record rows whose SKU was already seen
in the file as in-file duplicates, and collect the rest as `productsToImport`.
Accumulators mirror `skusInFile`, `duplicatesInFile` and `productsToImport`;
the result is `(productsToImport, duplicatesInFile)`. -/
def collectLoop : List CsvRow → List String → List String → List CsvRow →
    List CsvRow × List String
  | [], _, dups, toImport => (toImport, dups)
  | r :: rest, skusInFile, dups, toImport =>
    if r.fieldCount < 3 then
      collectLoop rest skusInFile dups toImport
    else if r.price < 0 then
      collectLoop rest skusInFile dups toImport
    else if r.sku ∈ skusInFile then
      collectLoop rest skusInFile (dups ++ [r.sku]) toImport
    else
      collectLoop rest (skusInFile ++ [r.sku]) dups (toImport ++ [r])

/-- The outcome of a CSV import: the two error toasts that abort without
inserting, or a successful insert with the three reported counts. -/
inductive ImportOutcome where
  | noValidProducts
  | allAlreadyExist
  | imported (inserted : List CsvRow) (importedCount skippedCount dupInFileCount : Nat)
deriving DecidableEq, Repr

/-- `handleImportCSV`: collect the import candidates, abort if none; filter
out candidates whose SKU already exists in the stored products, abort if none
remain; otherwise insert the remainder and report imported / skipped /
duplicate-in-file counts.  `existingSkus` stands for the stored products'
SKU column, against which the code's `.in('sku', skusToCheck)` query checks. -/
def handleImportCSV (rows : List CsvRow) (existingSkus : List String) : ImportOutcome :=
  let collected := collectLoop rows [] [] []
  let productsToImport := collected.1
  let duplicatesInFile := collected.2
  if productsToImport = [] then
    .noValidProducts
  else
    let newProducts := productsToImport.filter (fun p => ¬ existingSkus.contains p.sku)
    let skippedCount := productsToImport.length - newProducts.length
    if newProducts = [] then
      .allAlreadyExist
    else
      .imported newProducts newProducts.length skippedCount duplicatesInFile.length

/-! ## Helper definitions used by the theorems -/

/-- The price stored for product id `pid`, if a row with that id exists. -/
def priceOf (store : List ProductRow) (pid : Nat) : Option Rat :=
  (store.find? (fun r => r.id = pid)).map (fun r => r.price)

/-- Applying the adjust-branch write for every product of `l`, in order
(the loop's effect when no product aborts it). -/
def writeAll (pt : PriceAdjustmentType) (adjustment : Rat)
    (store : List ProductRow) (l : List ProductRow) : List ProductRow :=
  l.foldl (fun st p => updateProductPrice st p.id (max 0 (newPriceOf pt adjustment p.price))) store

/-- The cart invariant of C10: every line has quantity ≥ 1 and
`total = price × quantity`, and no two lines reference the same product. -/
def cartInvariant (cart : List CartItem) : Prop :=
  (∀ item ∈ cart, 1 ≤ item.quantity ∧ item.total = item.product.price * (item.quantity : Rat)) ∧
  (cart.map (fun item => item.product.id)).Nodup

/-- A row passes the import loop's validity checks: at least 3 fields and a
nonnegative parsed price. -/
def validRow (r : CsvRow) : Bool :=
  3 ≤ r.fieldCount ∧ 0 ≤ r.price

/-- Direct (non-accumulator) form of the import candidates: the first
occurrence of each SKU among the valid rows, given the SKUs already seen. -/
def dedupNew : List CsvRow → List String → List CsvRow
  | [], _ => []
  | r :: rest, skus =>
    if validRow r then
      if r.sku ∈ skus then dedupNew rest skus
      else r :: dedupNew rest (skus ++ [r.sku])
    else dedupNew rest skus

/-- Direct form of the in-file duplicate list: the SKUs of valid rows that
repeat an earlier valid row (or a SKU already seen). -/
def dupSkus : List CsvRow → List String → List String
  | [], _ => []
  | r :: rest, skus =>
    if validRow r then
      if r.sku ∈ skus then r.sku :: dupSkus rest skus
      else dupSkus rest (skus ++ [r.sku])
    else dupSkus rest skus

/-! # Theorems -/

/-- Updating variant `vid` rewrites exactly the found row's quantity. -/
theorem find?_update_variant (l : List VariantRow) (vid : Nat) (q : Int) :
    (l.map (fun v => if v.id = vid then { v with quantity := q } else v)).find?
        (fun v => v.id = vid) =
      (l.find? (fun v => v.id = vid)).map (fun v => { v with quantity := q }) := by
  induction l with
  | nil => rfl
  | cons a l ih =>
    by_cases h : a.id = vid
    · simp [List.find?_cons, h]
    · simp [List.find?_cons, h, ih]

/-- The looked-up quantity after `updateVariantQuantity`. -/
theorem lookupQuantity_update (s : StockState) (vid : Nat) (q : Int) :
    lookupQuantity (updateVariantQuantity s vid q) vid =
      (lookupQuantity s vid).map (fun _ => q) := by
  unfold lookupQuantity updateVariantQuantity
  rw [find?_update_variant]
  cases s.product_variants.find? (fun v => v.id = vid) <;> rfl

/-- C1: for a variant holding quantity `q` and adjustment value `v`, the
handler computes the new quantity as `q+v` for `add`, `q−v` for `remove` and
`v` for `set`; a negative computed value is rejected with no write (the state,
hence the stored quantity, is unchanged), otherwise the computed value is
written to the variant. -/
theorem handleAdjustment_spec (s : StockState) (pid vid : Nat) (t : AdjustmentType)
    (v : Int) (note : String) (uid : Nat) (q : Int)
    (hq : lookupQuantity s vid = some q) :
    (t = .add → newQuantityOf t q v = q + v) ∧
    (t = .remove → newQuantityOf t q v = q - v) ∧
    (t = .set → newQuantityOf t q v = v) ∧
    (newQuantityOf t q v < 0 →
      (handleAdjustment s pid vid t v note uid).success = false ∧
      (handleAdjustment s pid vid t v note uid).state = s) ∧
    (0 ≤ newQuantityOf t q v →
      (handleAdjustment s pid vid t v note uid).success = true ∧
      lookupQuantity (handleAdjustment s pid vid t v note uid).state vid =
        some (newQuantityOf t q v)) := by
  refine ⟨fun ht => by simp [ht, newQuantityOf],
          fun ht => by simp [ht, newQuantityOf],
          fun ht => by simp [ht, newQuantityOf], ?_, ?_⟩
  · intro hneg
    simp [handleAdjustment, hq, hneg]
  · intro hpos
    have hnn : ¬ newQuantityOf t q v < 0 := not_lt.mpr hpos
    have hins : ∀ (st : StockState) (row : StockLogRow) (vid' : Nat),
        lookupQuantity (insertStockLog st row) vid' = lookupQuantity st vid' := by
      intro st row vid'
      rfl
    constructor
    · simp [handleAdjustment, hq, hnn]
    · simp [handleAdjustment, hq, hnn, hins, lookupQuantity_update]

/-- Witness for C1 at the spec's scenario: variant at quantity 10,
`remove` 12 is rejected and the state is unchanged. -/
theorem handleAdjustment_spec_witness :
    lookupQuantity ⟨[⟨1, 10⟩], []⟩ 1 = some 10 ∧
    ((AdjustmentType.remove = .add → newQuantityOf .remove 10 12 = 10 + 12) ∧
     (AdjustmentType.remove = .remove → newQuantityOf .remove 10 12 = 10 - 12) ∧
     (AdjustmentType.remove = .set → newQuantityOf .remove 10 12 = 12) ∧
     (newQuantityOf .remove 10 12 < 0 →
       (handleAdjustment ⟨[⟨1, 10⟩], []⟩ 0 1 .remove 12 "" 9).success = false ∧
       (handleAdjustment ⟨[⟨1, 10⟩], []⟩ 0 1 .remove 12 "" 9).state = ⟨[⟨1, 10⟩], []⟩) ∧
     (0 ≤ newQuantityOf .remove 10 12 →
       (handleAdjustment ⟨[⟨1, 10⟩], []⟩ 0 1 .remove 12 "" 9).success = true ∧
       lookupQuantity (handleAdjustment ⟨[⟨1, 10⟩], []⟩ 0 1 .remove 12 "" 9).state 1 =
         some (newQuantityOf .remove 10 12))) :=
  ⟨by decide, handleAdjustment_spec ⟨[⟨1, 10⟩], []⟩ 0 1 .remove 12 "" 9 10 (by decide)⟩

/-- C4: every successful stock adjustment appends exactly one stock-log row,
and does so to the state in which the variant quantity has already been
updated; the row's recorded quantity is the adjustment value for `add` and
`remove` and the resulting new quantity for `set`, and its type tag is
`adjustment_in` / `adjustment_out` / `adjustment_set` respectively. -/
theorem handleAdjustment_log_spec (s : StockState) (pid vid : Nat) (t : AdjustmentType)
    (v : Int) (note : String) (uid : Nat) (q : Int)
    (hq : lookupQuantity s vid = some q)
    (hs : (handleAdjustment s pid vid t v note uid).success = true) :
    ∃ row : StockLogRow,
      (handleAdjustment s pid vid t v note uid).state =
        insertStockLog (updateVariantQuantity s vid (newQuantityOf t q v)) row ∧
      (handleAdjustment s pid vid t v note uid).state.stock_logs = s.stock_logs ++ [row] ∧
      row.quantity = (if t = .set then newQuantityOf t q v else v) ∧
      row.type = adjustmentLogType t ∧
      (t = .add → row.type = "adjustment_in") ∧
      (t = .remove → row.type = "adjustment_out") ∧
      (t = .set → row.type = "adjustment_set") := by
  have hnn : ¬ newQuantityOf t q v < 0 := by
    intro hneg
    have hcontra := hs
    simp [handleAdjustment, hq, hneg] at hcontra
  refine ⟨{ product_id := pid, variant_id := vid, type := adjustmentLogType t,
            quantity := if t = .set then newQuantityOf t q v else v,
            note := note, created_by := uid }, ?_, ?_, rfl, rfl, ?_, ?_, ?_⟩
  · simp [handleAdjustment, hq, hnn]
  · simp [handleAdjustment, hq, hnn, insertStockLog, updateVariantQuantity]
  · intro ht
    simp [ht, adjustmentLogType]
  · intro ht
    simp [ht, adjustmentLogType]
  · intro ht
    simp [ht, adjustmentLogType]

/-- Witness for C4: a concrete successful `add 5` on a variant holding 10. -/
theorem handleAdjustment_log_spec_witness :
    lookupQuantity ⟨[⟨1, 10⟩], []⟩ 1 = some 10 ∧
    (handleAdjustment ⟨[⟨1, 10⟩], []⟩ 7 1 .add 5 "note" 9).success = true ∧
    (∃ row : StockLogRow,
      (handleAdjustment ⟨[⟨1, 10⟩], []⟩ 7 1 .add 5 "note" 9).state =
        insertStockLog (updateVariantQuantity ⟨[⟨1, 10⟩], []⟩ 1
          (newQuantityOf .add 10 5)) row ∧
      (handleAdjustment ⟨[⟨1, 10⟩], []⟩ 7 1 .add 5 "note" 9).state.stock_logs =
        ([] : List StockLogRow) ++ [row] ∧
      row.quantity = (if AdjustmentType.add = .set then newQuantityOf .add 10 5 else 5) ∧
      row.type = adjustmentLogType .add ∧
      (AdjustmentType.add = .add → row.type = "adjustment_in") ∧
      (AdjustmentType.add = .remove → row.type = "adjustment_out") ∧
      (AdjustmentType.add = .set → row.type = "adjustment_set")) :=
  ⟨by decide, by decide,
   handleAdjustment_log_spec ⟨[⟨1, 10⟩], []⟩ 7 1 .add 5 "note" 9 10 (by decide) (by decide)⟩

/-- C5 fails on the code: every type string the adjustment handler writes
(`adjustment_in`, `adjustment_out`, `adjustment_set`) is rejected by the
`stock_logs` CHECK constraint `type IN ('in','out','sale','return')`, so the
log insert's constraint-violation error branch fires on every adjustment
(here evaluated on a concrete successful `add`). -/
theorem adjustmentLogType_violates_check :
    (∀ t : AdjustmentType, stockLogTypeCheck (adjustmentLogType t) = false) ∧
    ((handleAdjustment ⟨[⟨1, 10⟩], []⟩ 7 1 .add 5 "" 9).state.stock_logs.map
        (fun r => stockLogTypeCheck r.type)) = [false] := by
  constructor
  · intro t
    cases t <;> decide
  · decide

/-- C2 as stated is false: in the batch `[⟨0, 100⟩, ⟨1, 10⟩]` with fixed
adjustment −50, product 1's adjusted price (−40) is negative, yet product 0
has already been written (100 ↦ 50) before the loop aborts — the batch does
not leave every selected product unchanged. -/
theorem bulkAdjust_partial_write_counterexample :
    (handleSubmitAdjust .fixed (-50) [⟨0, 100⟩, ⟨1, 10⟩] [0, 1]).2 = false ∧
    (handleSubmitAdjust .fixed (-50) [⟨0, 100⟩, ⟨1, 10⟩] [0, 1]).1 = [⟨0, 50⟩, ⟨1, 10⟩] ∧
    (handleSubmitAdjust .fixed (-50) [⟨0, 100⟩, ⟨1, 10⟩] [0, 1]).1 ≠ [⟨0, 100⟩, ⟨1, 10⟩] := by
  have hfetch : fetchSelected [⟨0, 100⟩, ⟨1, 10⟩] [0, 1] = [⟨0, 100⟩, ⟨1, 10⟩] := rfl
  have h0 : newPriceOf .fixed (-50) (100 : Rat) = 50 := by
    norm_num [newPriceOf]
  have h1 : newPriceOf .fixed (-50) (10 : Rat) = -40 := by
    norm_num [newPriceOf]
  have hrun : handleSubmitAdjust .fixed (-50) [⟨0, 100⟩, ⟨1, 10⟩] [0, 1] =
      ([⟨0, 50⟩, ⟨1, 10⟩], false) := by
    unfold handleSubmitAdjust
    rw [hfetch]
    show adjustLoop .fixed (-50) [⟨0, 100⟩, ⟨1, 10⟩] (⟨0, 100⟩ :: [⟨1, 10⟩]) = _
    rw [adjustLoop]
    simp only [h0]
    norm_num [updateProductPrice]
    rw [adjustLoop]
    simp only [h1]
    norm_num [max_def]
  rw [hrun]
  refine ⟨rfl, rfl, ?_⟩
  intro hcontra
  norm_num [List.cons.injEq, ProductRow.mk.injEq] at hcontra

/-- C2 amended: when the fetched batch is `pre ++ bad :: rest` with every
product of `pre` adjusting to a nonnegative price and `bad` adjusting to a
negative one, the loop aborts at `bad`: the final store carries exactly the
writes for `pre` (already applied), and `bad` and everything after it are
never written. -/
theorem bulkAdjust_abort_at_first_negative (pt : PriceAdjustmentType) (adj : Rat)
    (store : List ProductRow) (pre rest : List ProductRow) (bad : ProductRow)
    (hpre : ∀ p ∈ pre, 0 ≤ newPriceOf pt adj p.price)
    (hbad : newPriceOf pt adj bad.price < 0) :
    adjustLoop pt adj store (pre ++ bad :: rest) = (writeAll pt adj store pre, false) := by
  induction pre generalizing store with
  | nil =>
    simp [adjustLoop, writeAll, hbad]
  | cons a pre ih =>
    have ha : ¬ newPriceOf pt adj a.price < 0 :=
      not_lt.mpr (hpre a (List.mem_cons_self a pre))
    have hpre' : ∀ p ∈ pre, 0 ≤ newPriceOf pt adj p.price :=
      fun p hp => hpre p (List.mem_cons_of_mem a hp)
    have hstep : adjustLoop pt adj store ((a :: pre) ++ bad :: rest) =
        adjustLoop pt adj (updateProductPrice store a.id (max 0 (newPriceOf pt adj a.price)))
          (pre ++ bad :: rest) := by
      rw [List.cons_append, adjustLoop]
      simp only [ha, if_false]
    rw [hstep, ih _ hpre']
    rfl

/-- Witness for the amended C2 at the counterexample batch. -/
theorem bulkAdjust_abort_at_first_negative_witness :
    (∀ p ∈ [(⟨0, 100⟩ : ProductRow)], 0 ≤ newPriceOf .fixed (-50) p.price) ∧
    newPriceOf .fixed (-50) (ProductRow.mk 1 10).price < 0 ∧
    adjustLoop .fixed (-50) [⟨0, 100⟩, ⟨1, 10⟩]
        ([(⟨0, 100⟩ : ProductRow)] ++ ⟨1, 10⟩ :: []) =
      (writeAll .fixed (-50) [⟨0, 100⟩, ⟨1, 10⟩] [⟨0, 100⟩], false) := by
  have hok : ∀ p ∈ [(⟨0, 100⟩ : ProductRow)], 0 ≤ newPriceOf .fixed (-50) p.price := by
    intro p hp
    rw [List.mem_singleton] at hp
    subst hp
    norm_num [newPriceOf]
  have hbad : newPriceOf .fixed (-50) (ProductRow.mk 1 10).price < 0 := by
    norm_num [newPriceOf]
  exact ⟨hok, hbad,
    bulkAdjust_abort_at_first_negative .fixed (-50) [⟨0, 100⟩, ⟨1, 10⟩]
      [⟨0, 100⟩] [] ⟨1, 10⟩ hok hbad⟩

/-- Updating product `pid` rewrites exactly the found row's price. -/
theorem find?_update_product (l : List ProductRow) (pid : Nat) (v : Rat) :
    (l.map (fun r => if r.id = pid then { r with price := v } else r)).find?
        (fun r => r.id = pid) =
      (l.find? (fun r => r.id = pid)).map (fun r => { r with price := v }) := by
  induction l with
  | nil => rfl
  | cons a l ih =>
    by_cases h : a.id = pid
    · simp [List.find?_cons, h]
    · simp [List.find?_cons, h, ih]

/-- The looked-up price after a write to the same id. -/
theorem priceOf_update_self (st : List ProductRow) (pid : Nat) (v : Rat) :
    priceOf (updateProductPrice st pid v) pid = (priceOf st pid).map (fun _ => v) := by
  unfold priceOf updateProductPrice
  rw [find?_update_product]
  cases st.find? (fun r => r.id = pid) <;> rfl

/-- A write to a different id leaves a lookup unchanged. -/
theorem find?_update_product_other (l : List ProductRow) (pid pid' : Nat) (v : Rat)
    (h : pid' ≠ pid) :
    (l.map (fun r => if r.id = pid then { r with price := v } else r)).find?
        (fun r => r.id = pid') = l.find? (fun r => r.id = pid') := by
  have hps : ¬ pid = pid' := fun hh => h hh.symm
  induction l with
  | nil => rfl
  | cons a l ih =>
    by_cases ha : a.id = pid
    · have hne : ¬ a.id = pid' := by
        rw [ha]
        exact hps
      simp [List.find?_cons, ha, hne, hps, ih]
    · by_cases ha' : a.id = pid'
      · simp [List.find?_cons, ha, ha', h, hps]
      · simp [List.find?_cons, ha, ha', ih]

/-- The looked-up price after a write to another id. -/
theorem priceOf_update_other (st : List ProductRow) (pid pid' : Nat) (v : Rat)
    (h : pid' ≠ pid) :
    priceOf (updateProductPrice st pid v) pid' = priceOf st pid' := by
  unfold priceOf updateProductPrice
  rw [find?_update_product_other st pid pid' v h]

/-- Unfolding one write of `writeAll`. -/
theorem writeAll_cons (pt : PriceAdjustmentType) (adj : Rat) (store : List ProductRow)
    (a : ProductRow) (l : List ProductRow) :
    writeAll pt adj store (a :: l) =
      writeAll pt adj (updateProductPrice store a.id (max 0 (newPriceOf pt adj a.price))) l := rfl

/-- Writes to a batch none of whose ids is `pid` leave `pid`'s price alone. -/
theorem priceOf_writeAll_other (pt : PriceAdjustmentType) (adj : Rat)
    (l : List ProductRow) (store : List ProductRow) (pid : Nat)
    (h : ∀ q ∈ l, q.id ≠ pid) :
    priceOf (writeAll pt adj store l) pid = priceOf store pid := by
  induction l generalizing store with
  | nil => rfl
  | cons a l ih =>
    rw [writeAll_cons, ih _ (fun q hq => h q (List.mem_cons_of_mem a hq))]
    exact priceOf_update_other store a.id pid _ (h a (List.mem_cons_self a l)).symm

/-- The adjust loop equals: write the longest nonnegative prefix, succeed
iff every product's adjusted price is nonnegative. -/
theorem adjustLoop_eq_takeWhile (pt : PriceAdjustmentType) (adj : Rat)
    (l store : List ProductRow) :
    adjustLoop pt adj store l =
      (writeAll pt adj store (l.takeWhile (fun p => 0 ≤ newPriceOf pt adj p.price)),
       l.all (fun p => 0 ≤ newPriceOf pt adj p.price)) := by
  induction l generalizing store with
  | nil => rfl
  | cons a l ih =>
    by_cases ha : 0 ≤ newPriceOf pt adj a.price
    · have ha2 : ¬ newPriceOf pt adj a.price < 0 := not_lt.mpr ha
      rw [adjustLoop]
      simp only [ha2, if_false]
      rw [ih]
      simp [List.takeWhile_cons, List.all_cons, ha, writeAll_cons]
    · have ha' : newPriceOf pt adj a.price < 0 := not_le.mp ha
      rw [adjustLoop]
      simp [ha', List.takeWhile_cons, List.all_cons, ha, writeAll]

/-- In a store with distinct product ids, a member is what lookup finds. -/
theorem find?_id_eq_of_mem (store : List ProductRow) (p : ProductRow)
    (hnd : (store.map (fun r => r.id)).Nodup) (hp : p ∈ store) :
    store.find? (fun r => r.id = p.id) = some p := by
  induction store with
  | nil => cases hp
  | cons a l ih =>
    rw [List.map_cons, List.nodup_cons] at hnd
    rcases List.mem_cons.mp hp with rfl | hp'
    · simp [List.find?_cons]
    · have hne : ¬ a.id = p.id := by
        intro he
        exact hnd.1 (by rw [he]; exact List.mem_map_of_mem _ hp')
      simp [List.find?_cons, hne, ih hnd.2 hp']

/-- Writing a batch with distinct ids sets each written product's stored
price to `max 0 newPrice`. -/
theorem priceOf_writeAll_mem (pt : PriceAdjustmentType) (adj : Rat)
    (l : List ProductRow) (store : List ProductRow) (p : ProductRow)
    (hnd : (l.map (fun r => r.id)).Nodup)
    (hp : p ∈ l)
    (hinv : ∀ q ∈ l, priceOf store q.id = some q.price) :
    priceOf (writeAll pt adj store l) p.id = some (max 0 (newPriceOf pt adj p.price)) := by
  induction l generalizing store with
  | nil => cases hp
  | cons a l ih =>
    rw [List.map_cons, List.nodup_cons] at hnd
    rw [writeAll_cons]
    rcases List.mem_cons.mp hp with rfl | hp'
    · have hne : ∀ q ∈ l, q.id ≠ p.id := by
        intro q hq he
        exact hnd.1 (by rw [← he]; exact List.mem_map_of_mem _ hq)
      rw [priceOf_writeAll_other pt adj l _ p.id hne, priceOf_update_self,
          hinv p (List.mem_cons_self p l)]
      rfl
    · refine ih (updateProductPrice store a.id (max 0 (newPriceOf pt adj a.price)))
        hnd.2 hp' ?_
      intro q hq
      have hne : q.id ≠ a.id := by
        intro he
        exact hnd.1 (by rw [← he]; exact List.mem_map_of_mem _ hq)
      rw [priceOf_update_other store a.id q.id _ hne]
      exact hinv q (List.mem_cons_of_mem a hq)

/-- C7: every product the bulk adjust actually updates (a member of the
longest prefix of the fetched batch whose adjusted prices are nonnegative —
all of it when no abort occurs) ends up stored with price
`max 0 (p×(1+a/100))` for a percentage adjustment of a%, and `max 0 (p+a)`
for a fixed adjustment of a. -/
theorem bulkAdjust_written_price (pt : PriceAdjustmentType) (adj : Rat)
    (store : List ProductRow) (selectedIds : List Nat) (p : ProductRow)
    (hnd : (store.map (fun r => r.id)).Nodup)
    (hp : p ∈ (fetchSelected store selectedIds).takeWhile
        (fun r => 0 ≤ newPriceOf pt adj r.price)) :
    priceOf (handleSubmitAdjust pt adj store selectedIds).1 p.id =
      some (max 0 (newPriceOf pt adj p.price)) ∧
    (pt = .percentage →
      priceOf (handleSubmitAdjust pt adj store selectedIds).1 p.id =
        some (max 0 (p.price * (1 + adj / 100)))) ∧
    (pt = .fixed →
      priceOf (handleSubmitAdjust pt adj store selectedIds).1 p.id =
        some (max 0 (p.price + adj))) := by
  have hmain : priceOf (handleSubmitAdjust pt adj store selectedIds).1 p.id =
      some (max 0 (newPriceOf pt adj p.price)) := by
    unfold handleSubmitAdjust
    rw [adjustLoop_eq_takeWhile]
    refine priceOf_writeAll_mem pt adj _ store p ?_ hp ?_
    · have h1 : List.Sublist
          ((fetchSelected store selectedIds).takeWhile
            (fun r => 0 ≤ newPriceOf pt adj r.price))
          (fetchSelected store selectedIds) :=
        List.takeWhile_sublist _
      have h2 : List.Sublist (fetchSelected store selectedIds) store :=
        List.filter_sublist _
      exact List.Nodup.sublist ((h1.trans h2).map _) hnd
    · intro q hq
      have hq1 : q ∈ fetchSelected store selectedIds :=
        (List.takeWhile_sublist _).subset hq
      unfold fetchSelected at hq1
      have hq2 : q ∈ store := List.mem_of_mem_filter hq1
      unfold priceOf
      rw [find?_id_eq_of_mem store q hnd hq2]
      rfl
  refine ⟨hmain, ?_, ?_⟩
  · intro hpt
    subst hpt
    rw [hmain]
    rfl
  · intro hpt
    subst hpt
    rw [hmain]
    rfl

/-- Witness for C7 at the spec's scenario: three products at prices
100, 50, 20, percentage adjustment −30%. -/
theorem bulkAdjust_written_price_witness :
    ((([⟨0, 100⟩, ⟨1, 50⟩, ⟨2, 20⟩] : List ProductRow).map (fun r => r.id)).Nodup) ∧
    ((⟨1, 50⟩ : ProductRow) ∈
      (fetchSelected [⟨0, 100⟩, ⟨1, 50⟩, ⟨2, 20⟩] [0, 1, 2]).takeWhile
        (fun r => 0 ≤ newPriceOf .percentage (-30) r.price)) ∧
    (priceOf (handleSubmitAdjust .percentage (-30) [⟨0, 100⟩, ⟨1, 50⟩, ⟨2, 20⟩]
        [0, 1, 2]).1 (ProductRow.mk 1 50).id =
      some (max 0 (newPriceOf .percentage (-30) (ProductRow.mk 1 50).price)) ∧
    (PriceAdjustmentType.percentage = .percentage →
      priceOf (handleSubmitAdjust .percentage (-30) [⟨0, 100⟩, ⟨1, 50⟩, ⟨2, 20⟩]
          [0, 1, 2]).1 (ProductRow.mk 1 50).id =
        some (max 0 ((ProductRow.mk 1 50).price * (1 + (-30) / 100)))) ∧
    (PriceAdjustmentType.percentage = .fixed →
      priceOf (handleSubmitAdjust .percentage (-30) [⟨0, 100⟩, ⟨1, 50⟩, ⟨2, 20⟩]
          [0, 1, 2]).1 (ProductRow.mk 1 50).id =
        some (max 0 ((ProductRow.mk 1 50).price + (-30))))) := by
  have h0 : (0 : Rat) ≤ newPriceOf .percentage (-30) (ProductRow.mk 0 100).price := by
    norm_num [newPriceOf]
  have h1 : (0 : Rat) ≤ newPriceOf .percentage (-30) (ProductRow.mk 1 50).price := by
    norm_num [newPriceOf]
  have h2 : (0 : Rat) ≤ newPriceOf .percentage (-30) (ProductRow.mk 2 20).price := by
    norm_num [newPriceOf]
  have hfetch : fetchSelected [⟨0, 100⟩, ⟨1, 50⟩, ⟨2, 20⟩] [0, 1, 2] =
      [⟨0, 100⟩, ⟨1, 50⟩, ⟨2, 20⟩] := rfl
  have hmem : (⟨1, 50⟩ : ProductRow) ∈
      (fetchSelected [⟨0, 100⟩, ⟨1, 50⟩, ⟨2, 20⟩] [0, 1, 2]).takeWhile
        (fun r => 0 ≤ newPriceOf .percentage (-30) r.price) := by
    rw [hfetch]
    simp [List.takeWhile_cons, h0, h1, h2]
  exact ⟨by decide, hmem,
    bulkAdjust_written_price .percentage (-30) [⟨0, 100⟩, ⟨1, 50⟩, ⟨2, 20⟩]
      [0, 1, 2] ⟨1, 50⟩ (by decide) hmem⟩

/-- On nonnegative amounts the `decimal(10,2)` column scale rounds exactly as
the spec's "rounded to 2 decimal places" (`roundTo2`). -/
theorem numericScale2_eq_roundTo2 (q : Rat) (hq : 0 ≤ q) :
    numericScale2 q = roundTo2 q := by
  rw [numericScale2, if_pos hq, roundTo2, round_eq]

/-- C3: for every non-empty cart with a nonnegative subtotal (line totals are
unit price × quantity, both nonnegative in the application), checkout appends
exactly one sale whose persisted tax amount is `(Σtᵢ) × 0.05` and whose
persisted total amount is `(Σtᵢ) × 1.05`, each rounded to 2 decimal places by
the `decimal(10,2)` column scale on insert. -/
theorem handleCheckout_totals (st : PosState) (cart : List CartItem)
    (customerName phoneNumber paymentMethod : String) (userId saleId : Nat)
    (saleNumber : String) (h : cart ≠ []) (hnn : 0 ≤ calculateSubtotal cart) :
    ∃ sale : SaleRow,
      (handleCheckout st cart customerName phoneNumber paymentMethod userId saleId
        saleNumber).sales = st.sales ++ [sale] ∧
      sale.tax_amount = roundTo2 (calculateSubtotal cart * 0.05) ∧
      sale.total_amount = roundTo2 (calculateSubtotal cart * 1.05) := by
  have htax : calculateTax cart = calculateSubtotal cart * 0.05 := rfl
  have htot : calculateTotal cart = calculateSubtotal cart * 1.05 := by
    simp only [calculateTotal, calculateTax]
    ring
  refine ⟨{ sale_number := saleNumber
            customer_name := if customerName = "" then "Walk-in Customer" else customerName
            payment_method := paymentMethod
            payment_status := "paid"
            tax_amount := numericScale2 (calculateTax cart)
            total_amount := numericScale2 (calculateTotal cart)
            created_by := userId }, ?_, ?_, ?_⟩
  · unfold handleCheckout
    rw [if_neg h]
    dsimp only
    split <;> rfl
  · show numericScale2 (calculateTax cart) = roundTo2 (calculateSubtotal cart * 0.05)
    rw [htax, numericScale2_eq_roundTo2 _ (mul_nonneg hnn (by norm_num))]
  · show numericScale2 (calculateTotal cart) = roundTo2 (calculateSubtotal cart * 1.05)
    rw [htot, numericScale2_eq_roundTo2 _ (mul_nonneg hnn (by norm_num))]

/-- Witness for C3 at the spec's scenario: cart
`[{price 100, qty 2}, {price 50, qty 1}]` (subtotal 250, tax 12.50,
total 262.50). -/
theorem handleCheckout_totals_witness :
    ([⟨⟨0, "p", "S", 100⟩, 2, 200⟩, ⟨⟨1, "q", "T", 50⟩, 1, 50⟩] : List CartItem) ≠ [] ∧
    0 ≤ calculateSubtotal [⟨⟨0, "p", "S", 100⟩, 2, 200⟩, ⟨⟨1, "q", "T", 50⟩, 1, 50⟩] ∧
    (∃ sale : SaleRow,
      (handleCheckout ⟨[], [], [], [], []⟩
          [⟨⟨0, "p", "S", 100⟩, 2, 200⟩, ⟨⟨1, "q", "T", 50⟩, 1, 50⟩]
          "Jay" "123" "cash" 1 1 "SALE-2").sales =
        ([] : List SaleRow) ++ [sale] ∧
      sale.tax_amount = roundTo2 (calculateSubtotal
        [⟨⟨0, "p", "S", 100⟩, 2, 200⟩, ⟨⟨1, "q", "T", 50⟩, 1, 50⟩] * 0.05) ∧
      sale.total_amount = roundTo2 (calculateSubtotal
        [⟨⟨0, "p", "S", 100⟩, 2, 200⟩, ⟨⟨1, "q", "T", 50⟩, 1, 50⟩] * 1.05)) := by
  have hnn : 0 ≤ calculateSubtotal
      [⟨⟨0, "p", "S", 100⟩, 2, 200⟩, ⟨⟨1, "q", "T", 50⟩, 1, 50⟩] := by
    norm_num [calculateSubtotal]
  exact ⟨by simp, hnn,
    handleCheckout_totals ⟨[], [], [], [], []⟩
      [⟨⟨0, "p", "S", 100⟩, 2, 200⟩, ⟨⟨1, "q", "T", 50⟩, 1, 50⟩]
      "Jay" "123" "cash" 1 1 "SALE-2" (by simp) hnn⟩

/-- C6: checkout never touches the stock-related state — the product-variant
table and the stock-log table after `handleCheckout` are exactly what they
were before, for every cart and every input. -/
theorem handleCheckout_stock_frame (st : PosState) (cart : List CartItem)
    (customerName phoneNumber paymentMethod : String) (userId saleId : Nat)
    (saleNumber : String) :
    (handleCheckout st cart customerName phoneNumber paymentMethod userId saleId
      saleNumber).product_variants = st.product_variants ∧
    (handleCheckout st cart customerName phoneNumber paymentMethod userId saleId
      saleNumber).stock_logs = st.stock_logs := by
  unfold handleCheckout
  by_cases hc : cart = []
  · rw [if_pos hc]
    exact ⟨rfl, rfl⟩
  · rw [if_neg hc]
    dsimp only
    constructor
    · split <;> rfl
    · split <;> rfl

/-- One account creation in a system that already has at least one account:
the trigger sees a user count of at least 2 and grants the standard role. -/
theorem createAccount_nonempty (s : AuthState) (i : Nat) (h : s.users ≠ []) :
    createAccount s i =
      { users := s.users ++ [i]
        profiles := s.profiles ++ [ProfileRow.mk i]
        user_roles := s.user_roles ++ [UserRoleRow.mk i "user"] } := by
  have hne : ¬ (s.users ++ [i]).length = 1 := by
    rw [List.length_append, List.length_singleton]
    intro hc
    have hz : s.users.length = 0 := by omega
    exact h (List.length_eq_zero.mp hz)
  unfold createAccount handle_new_user
  dsimp only
  rw [if_neg hne]

/-- Every creation after the first yields the standard role, accumulated in
order. -/
theorem createAccounts_all_user (ids : List Nat) (s : AuthState) (h : s.users ≠ []) :
    (createAccounts s ids).user_roles =
      s.user_roles ++ ids.map (fun i => UserRoleRow.mk i "user") := by
  induction ids generalizing s with
  | nil => simp [createAccounts]
  | cons i rest ih =>
    show (createAccounts (createAccount s i) rest).user_roles = _
    rw [createAccount_nonempty s i h]
    rw [ih _ (by simp)]
    simp

/-- C8: starting from a system with no accounts, the first created account is
granted the `admin` role by the `handle_new_user` trigger, and every account
created after it is granted the `user` role. -/
theorem firstUser_admin_rest_user (ids : List Nat) :
    (createAccounts emptyAuthState ids).user_roles =
      match ids with
      | [] => []
      | first :: rest =>
        UserRoleRow.mk first "admin" :: rest.map (fun i => UserRoleRow.mk i "user") := by
  cases ids with
  | nil => rfl
  | cons first rest =>
    show (createAccounts (createAccount emptyAuthState first) rest).user_roles = _
    have h1 : createAccount emptyAuthState first =
        { users := [first], profiles := [ProfileRow.mk first],
          user_roles := [UserRoleRow.mk first "admin"] } := rfl
    rw [h1, createAccounts_all_user rest _ (by simp)]
    simp

/-- The accumulator loop of the CSV import equals its direct form. -/
theorem collectLoop_spec (rows : List CsvRow) (skus dups : List String)
    (toImport : List CsvRow) :
    collectLoop rows skus dups toImport =
      (toImport ++ dedupNew rows skus, dups ++ dupSkus rows skus) := by
  induction rows generalizing skus dups toImport with
  | nil => simp [collectLoop, dedupNew, dupSkus]
  | cons r rest ih =>
    by_cases h3 : r.fieldCount < 3
    · have hv : validRow r = false := by
        simp only [validRow, decide_eq_false_iff_not]
        intro hc
        omega
      rw [collectLoop, dedupNew, dupSkus]
      simp only [if_pos h3, hv, Bool.false_eq_true, if_false, ih]
    · by_cases hp : r.price < 0
      · have hv : validRow r = false := by
          simp only [validRow, decide_eq_false_iff_not]
          intro hc
          exact absurd hc.2 (not_le.mpr hp)
        rw [collectLoop, dedupNew, dupSkus]
        simp only [if_neg h3, if_pos hp, hv, Bool.false_eq_true, if_false, ih]
      · have hv : validRow r = true := by
          simp only [validRow, decide_eq_true_eq]
          exact ⟨by omega, not_lt.mp hp⟩
        by_cases hm : r.sku ∈ skus
        · rw [collectLoop, dedupNew, dupSkus]
          simp only [if_neg h3, if_neg hp, if_pos hm, hv, if_true, ih]
          simp [List.append_assoc]
        · rw [collectLoop, dedupNew, dupSkus]
          simp only [if_neg h3, if_neg hp, if_neg hm, hv, if_true, ih]
          simp [List.append_assoc]

/-- Every valid row is counted exactly once: either as an in-file duplicate
or as an import candidate. -/
theorem dupSkus_dedupNew_length (rows : List CsvRow) (skus : List String) :
    (dupSkus rows skus).length + (dedupNew rows skus).length =
      (rows.filter (fun r => validRow r)).length := by
  induction rows generalizing skus with
  | nil => rfl
  | cons r rest ih =>
    by_cases hv : validRow r = true
    · by_cases hm : r.sku ∈ skus
      · rw [dupSkus, dedupNew]
        simp only [hv, if_true, if_pos hm, List.filter_cons, List.length_cons]
        have hih := ih skus
        omega
      · rw [dupSkus, dedupNew]
        simp only [hv, if_true, if_neg hm, List.filter_cons, List.length_cons]
        have hih := ih (skus ++ [r.sku])
        omega
    · rw [dupSkus, dedupNew]
      simp only [hv, Bool.false_eq_true, if_false, List.filter_cons]
      exact ih skus

/-- C9 as stated is false: in the file `[(sku "A", price 5), (sku "A",
price −1)]` against an empty store, the second row repeats the first row's
SKU, yet the import reports 0 in-file duplicates — the negative-price check
drops the row before the duplicate check ever sees it. -/
theorem handleImportCSV_dup_not_counted_counterexample :
    (CsvRow.mk "b" "A" none (-1) 5).sku = (CsvRow.mk "a" "A" none 5 5).sku ∧
    handleImportCSV [CsvRow.mk "a" "A" none 5 5, CsvRow.mk "b" "A" none (-1) 5] [] =
      .imported [CsvRow.mk "a" "A" none 5 5] 1 0 0 := by
  exact ⟨rfl, by decide⟩

/-- C9 amended: rows with fewer than 3 fields or a negative parsed price are
dropped before deduplication and appear in no reported count.  Among the
remaining (valid) rows, a row whose SKU repeats an earlier valid row is
counted as an in-file duplicate; of the remaining first occurrences, those
whose SKU already exists in the stored products are counted as skipped and
the rest are inserted and counted as imported.  The three reported counts
are disjoint: imported + skipped = number of distinct-SKU valid rows, and
duplicates + distinct-SKU valid rows = number of valid rows. -/
theorem handleImportCSV_spec (rows : List CsvRow) (existingSkus : List String)
    (inserted : List CsvRow) (importedCount skippedCount dupInFileCount : Nat)
    (hrun : handleImportCSV rows existingSkus =
      .imported inserted importedCount skippedCount dupInFileCount) :
    inserted = (dedupNew rows []).filter (fun p => ¬ existingSkus.contains p.sku) ∧
    importedCount = inserted.length ∧
    skippedCount = (dedupNew rows []).length - importedCount ∧
    dupInFileCount = (dupSkus rows []).length ∧
    importedCount + skippedCount = (dedupNew rows []).length ∧
    dupInFileCount + (dedupNew rows []).length =
      (rows.filter (fun r => validRow r)).length := by
  unfold handleImportCSV at hrun
  rw [collectLoop_spec] at hrun
  simp only [List.nil_append] at hrun
  by_cases h1 : dedupNew rows [] = []
  · rw [if_pos h1] at hrun
    cases hrun
  · rw [if_neg h1] at hrun
    by_cases h2 : (dedupNew rows []).filter
        (fun p => ¬ existingSkus.contains p.sku) = []
    · rw [if_pos h2] at hrun
      cases hrun
    · rw [if_neg h2] at hrun
      have hinj := hrun
      rw [ImportOutcome.imported.injEq] at hinj
      obtain ⟨hins, hic, hsc, hdc⟩ := hinj
      subst hins
      subst hic
      subst hsc
      subst hdc
      have hle : ((dedupNew rows []).filter
          (fun p => ¬ existingSkus.contains p.sku)).length ≤ (dedupNew rows []).length :=
        List.length_filter_le _ _
      refine ⟨rfl, rfl, rfl, rfl, by omega, ?_⟩
      exact dupSkus_dedupNew_length rows []

/-- Witness for the amended C9: file `[(A, 5), (B, 3), (A, 2)]` against a
store already holding SKU `B` — one row imported, one skipped, one in-file
duplicate. -/
theorem handleImportCSV_spec_witness :
    handleImportCSV
        [CsvRow.mk "a" "A" none 5 5, CsvRow.mk "b" "B" none 3 5,
         CsvRow.mk "c" "A" none 2 5] ["B"] =
      .imported [CsvRow.mk "a" "A" none 5 5] 1 1 1 ∧
    ([CsvRow.mk "a" "A" none 5 5] =
      (dedupNew [CsvRow.mk "a" "A" none 5 5, CsvRow.mk "b" "B" none 3 5,
         CsvRow.mk "c" "A" none 2 5] []).filter
        (fun p => ¬ (["B"] : List String).contains p.sku) ∧
    1 = ([CsvRow.mk "a" "A" none 5 5] : List CsvRow).length ∧
    1 = (dedupNew [CsvRow.mk "a" "A" none 5 5, CsvRow.mk "b" "B" none 3 5,
         CsvRow.mk "c" "A" none 2 5] []).length - 1 ∧
    1 = (dupSkus [CsvRow.mk "a" "A" none 5 5, CsvRow.mk "b" "B" none 3 5,
         CsvRow.mk "c" "A" none 2 5] []).length ∧
    1 + 1 = (dedupNew [CsvRow.mk "a" "A" none 5 5, CsvRow.mk "b" "B" none 3 5,
         CsvRow.mk "c" "A" none 2 5] []).length ∧
    1 + (dedupNew [CsvRow.mk "a" "A" none 5 5, CsvRow.mk "b" "B" none 3 5,
         CsvRow.mk "c" "A" none 2 5] []).length =
      ([CsvRow.mk "a" "A" none 5 5, CsvRow.mk "b" "B" none 3 5,
         CsvRow.mk "c" "A" none 2 5].filter (fun r => validRow r)).length) :=
  ⟨by decide,
   handleImportCSV_spec
     [CsvRow.mk "a" "A" none 5 5, CsvRow.mk "b" "B" none 3 5,
      CsvRow.mk "c" "A" none 2 5] ["B"]
     [CsvRow.mk "a" "A" none 5 5] 1 1 1 (by decide)⟩

/-- Removing a product preserves the cart invariant. -/
theorem cartInvariant_removeFromCart (cart : List CartItem) (pid : Nat)
    (h : cartInvariant cart) : cartInvariant (removeFromCart cart pid) := by
  obtain ⟨hall, hnd⟩ := h
  constructor
  · intro item hmem
    exact hall item (List.mem_of_mem_filter hmem)
  · have hsub : List.Sublist (removeFromCart cart pid) cart := List.filter_sublist _
    exact List.Nodup.sublist (hsub.map _) hnd

/-- Setting a line's quantity preserves the cart invariant. -/
theorem cartInvariant_updateQuantity (cart : List CartItem) (pid : Nat) (q : Int)
    (h : cartInvariant cart) : cartInvariant (updateQuantity cart pid q) := by
  by_cases hq : q ≤ 0
  · rw [updateQuantity, if_pos hq]
    exact cartInvariant_removeFromCart cart pid h
  · rw [updateQuantity, if_neg hq]
    obtain ⟨hall, hnd⟩ := h
    constructor
    · intro item hmem
      rw [List.mem_map] at hmem
      obtain ⟨orig, horig, rfl⟩ := hmem
      by_cases hid : orig.product.id = pid
      · rw [if_pos hid]
        refine ⟨?_, rfl⟩
        show 1 ≤ q
        omega
      · rw [if_neg hid]
        exact hall orig horig
    · rw [List.map_map]
      have hcomp : ((fun item : CartItem => item.product.id) ∘ (fun item =>
          if item.product.id = pid then
            { item with quantity := q, total := item.product.price * q }
          else item)) = fun item : CartItem => item.product.id := by
        funext item
        by_cases hid : item.product.id = pid <;> simp [hid]
      rw [hcomp]
      exact hnd

/-- Adding a product preserves the cart invariant. -/
theorem cartInvariant_addToCart (cart : List CartItem) (product : Product)
    (h : cartInvariant cart) : cartInvariant (addToCart cart product) := by
  unfold addToCart
  cases hfind : cart.find? (fun item => item.product.id = product.id) with
  | some existingItem =>
    exact cartInvariant_updateQuantity cart product.id (existingItem.quantity + 1) h
  | none =>
    obtain ⟨hall, hnd⟩ := h
    have hnotin : ∀ item ∈ cart, ¬ (item.product.id = product.id) := by
      intro item hmem
      have hpred := List.find?_eq_none.mp hfind item hmem
      simpa using hpred
    constructor
    · intro item hmem
      rw [List.mem_append] at hmem
      rcases hmem with hmem | hmem
      · exact hall item hmem
      · rw [List.mem_singleton] at hmem
        subst hmem
        refine ⟨le_refl 1, ?_⟩
        show product.price = product.price * ((1 : Int) : Rat)
        simp
    · rw [List.map_append]
      have hmapone : ([CartItem.mk product 1 product.price].map
          (fun item => item.product.id)) = [product.id] := rfl
      rw [hmapone, List.nodup_append]
      refine ⟨hnd, List.nodup_singleton _, ?_⟩
      intro a ha hb
      rw [List.mem_singleton] at hb
      subst hb
      rw [List.mem_map] at ha
      obtain ⟨item, hitem, hid⟩ := ha
      exact hnotin item hitem hid

/-- C10: the cart operations preserve the invariant that every line has
quantity ≥ 1 and total = unit price × quantity and that no two lines
reference the same product; and `updateQuantity` with a non-positive value
removes the line (leaving no line for that product) instead of storing a
non-positive quantity. -/
theorem cart_ops_preserve_invariant (cart : List CartItem) (product : Product)
    (pid : Nat) (q : Int) (h : cartInvariant cart) :
    cartInvariant (addToCart cart product) ∧
    cartInvariant (updateQuantity cart pid q) ∧
    cartInvariant (removeFromCart cart pid) ∧
    (q ≤ 0 → updateQuantity cart pid q = removeFromCart cart pid ∧
      ∀ item ∈ updateQuantity cart pid q, item.product.id ≠ pid) := by
  refine ⟨cartInvariant_addToCart cart product h,
          cartInvariant_updateQuantity cart pid q h,
          cartInvariant_removeFromCart cart pid h, ?_⟩
  intro hq
  constructor
  · rw [updateQuantity, if_pos hq]
  · intro item hmem
    rw [updateQuantity, if_pos hq] at hmem
    unfold removeFromCart at hmem
    rw [List.mem_filter] at hmem
    have hpred := hmem.2
    simpa using hpred

/-- Witness for C10: a one-line cart `{price 4, qty 2, total 8}`, adding a
new product, and `updateQuantity 0` on the existing line. -/
theorem cart_ops_preserve_invariant_witness :
    cartInvariant [⟨⟨5, "x", "X", 4⟩, 2, 8⟩] ∧
    (cartInvariant (addToCart [⟨⟨5, "x", "X", 4⟩, 2, 8⟩] ⟨6, "y", "Y", 3⟩) ∧
    cartInvariant (updateQuantity [⟨⟨5, "x", "X", 4⟩, 2, 8⟩] 5 0) ∧
    cartInvariant (removeFromCart [⟨⟨5, "x", "X", 4⟩, 2, 8⟩] 5) ∧
    ((0 : Int) ≤ 0 →
      updateQuantity [⟨⟨5, "x", "X", 4⟩, 2, 8⟩] 5 0 =
        removeFromCart [⟨⟨5, "x", "X", 4⟩, 2, 8⟩] 5 ∧
      ∀ item ∈ updateQuantity [⟨⟨5, "x", "X", 4⟩, 2, 8⟩] 5 0,
        item.product.id ≠ 5)) := by
  have hinv : cartInvariant [⟨⟨5, "x", "X", 4⟩, 2, 8⟩] := by
    constructor
    · intro item hmem
      rw [List.mem_singleton] at hmem
      subst hmem
      exact ⟨by norm_num, by norm_num⟩
    · simp
  exact ⟨hinv, cart_ops_preserve_invariant [⟨⟨5, "x", "X", 4⟩, 2, 8⟩] ⟨6, "y", "Y", 3⟩ 5 0 hinv⟩

end MerchMaster
